import Mathlib

/-!
Verification of the cooperative-scheduler semantics demonstrated by
`python-async-def-is-a-magic-footgun.ipynb`.

The notebook's coroutines, futures, timers and lock are shallowly embedded as
follows.  A Python coroutine body is a value of the deep-embedded type `Prog`;
constructing a `Prog` has no effect, exactly like calling an `async def`
function in Python, and all execution happens when a `Prog` is *driven*
(`drive`), mirroring `coro.send(None)`.  The event loop's state (virtual
monotonic time, futures, timer queue, ready queue, the single write lock and
the printed log) is the structure `St`.  Plain (non-`async`) Python functions
of the notebook such as `os_async_write` and `async_sleep` become Lean
functions `St → St × _` whose state effects happen at call time, again
mirroring the source.  Machine integers do not occur; all times are `Nat`.

The scheduler, `asyncio.Future`, `asyncio.Lock` and `asyncio.create_task` are
runtime components used by the notebook but not implemented in it; they are
modelled from the spec (sections 3, 4.1-4.5) and from asyncio's documented
behaviour, as noted on each definition.
-/

namespace AsyncFootgun

/-- Errors: `AlreadyResolved` (resolving a settled future, asyncio's
`InvalidStateError`), `NotHeld` (releasing an unheld lock), and ordinary
computation failures carrying a message. -/
inductive Err : Type where
  | alreadyResolved : Err
  | notHeld : Err
  | userErr : String → Err
deriving DecidableEq, Repr

/-- Values a computation can produce or a future can hold. -/
inductive Val : Type where
  | unit : Val
  | nat : Nat → Val
  | str : String → Val
deriving DecidableEq, Repr

/-- Deep embedding of a suspendable computation (a Python coroutine body).
Creating a `Prog` runs nothing, exactly like calling an `async def` function;
`drive` below executes it.  Constructors:
* `ret v` / `throwE e` — return / raise.
* `log m k` — a recordable side effect (the notebook's `log(...)` print).
* `work d k` — synchronous CPU work occupying the thread for `d` time units
  (the notebook's `time.sleep(WORK_TIME)` inside `do_cpu_work`).
* `sleepF d k` — a call to the notebook's `async_sleep(d)` made inside a
  coroutine body: at drive time it registers a timer future and hands its id
  to the rest of the body.
* `awaitFut fid k` — `await` on the future `fid` (the only suspension point).
* `acquireL k` — driving `write_lock.acquire()` (asyncio's `Lock.acquire` is
  itself an `async def`, so the acquisition happens at drive time).
* `releaseL k` — `write_lock.release()`. -/
inductive Prog : Type where
  | ret : Val → Prog
  | throwE : Err → Prog
  | log : String → Prog → Prog
  | work : Nat → Prog → Prog
  | sleepF : Nat → (Nat → Prog) → Prog
  | awaitFut : Nat → (Val → Prog) → Prog
  | acquireL : Prog → Prog
  | releaseL : Prog → Prog

/-- A waiter registered on a future: when the future settles, `k` is resumed
with the future's value and its terminal outcome settles future `resultF`.
Modelled from the spec: section 4.5's Task continuations (asyncio callbacks
are not in src/). -/
structure Waiter : Type where
  k : Val → Prog
  resultF : Nat

/-- State of one future: `Pending` with its FIFO waiter list, `Resolved`, or
`Failed`.  Modelled from the spec: section 3's `Future<T>` (asyncio.Future is
not in src/). -/
inductive FState : Type where
  | pending : List Waiter → FState
  | resolvedS : Val → FState
  | failedS : Err → FState

/-- One ready-queue entry: resume `k` with `res` (value, or error to raise at
the suspension point) and settle `resultF` on termination.  Modelled from the
spec: section 3's `ReadyQueueEntry`. -/
structure ReadyE : Type where
  res : Except Err Val
  k : Val → Prog
  resultF : Nat

/-- The write lock: held flag plus FIFO queue of waiter future ids.
Modelled from the spec: section 3's `Lock` (asyncio.Lock is not in src/). -/
structure LockSt : Type where
  locked : Bool
  waiters : List Nat
deriving DecidableEq, Repr

/-- The whole event-loop state: virtual time, fresh-future counter, future
store (newest first; lookup finds the first match), deadline-sorted timer
queue of `(deadline, futureId)`, FIFO ready queue, the write lock, and the
log of printed markers. -/
structure St : Type where
  now : Nat
  nextF : Nat
  futures : List (Nat × FState)
  timers : List (Nat × Nat)
  ready : List ReadyE
  lock : LockSt
  log : List String

/-- The pristine loop state. -/
def initSt : St :=
  { now := 0, nextF := 0, futures := [], timers := [], ready := [],
    lock := { locked := false, waiters := [] }, log := [] }

/-- Look up a future's state (first match wins; fresh futures are prepended). -/
def lookupF : List (Nat × FState) → Nat → Option FState
  | [], _ => none
  | (j, st) :: rest, fid => if j = fid then some st else lookupF rest fid

/-- Replace the state of the first entry for `fid`. -/
def updF (fid : Nat) (st : FState) : List (Nat × FState) → List (Nat × FState)
  | [] => []
  | (j, st0) :: rest =>
      if j = fid then (j, st) :: rest else (j, st0) :: updF fid st rest

/-- Append a printed marker to the log. -/
def addLog (m : String) (s : St) : St := { s with log := s.log ++ [m] }

/-- Create a fresh pending future, returning its id. -/
def newFuture (s : St) : St × Nat :=
  ({ s with nextF := s.nextF + 1,
            futures := (s.nextF, FState.pending []) :: s.futures }, s.nextF)

/-- Insert a timer keeping the queue sorted by deadline, ties in creation
order (spec section 3, `TimerEntry`). -/
def insertTimer (d : Nat) (fid : Nat) : List (Nat × Nat) → List (Nat × Nat)
  | [] => [(d, fid)]
  | (d0, f0) :: rest =>
      if d < d0 then (d, fid) :: (d0, f0) :: rest
      else (d0, f0) :: insertTimer d fid rest

/-- Translation of the notebook's `async_sleep(t)`: a *plain* function that,
at call time, creates a fresh future and registers a timer resolving it at
`now + t` (the source's `call_later(t, future.set_result, None)`), then
returns the future.  The deadline is fixed here, not at first await. -/
def async_sleep (t : Nat) (s : St) : St × Nat :=
  match newFuture s with
  | (s1, fid) => ({ s1 with timers := insertTimer (s.now + t) fid s1.timers }, fid)

/-- Settle future `fid` with `r`, enqueueing every registered waiter onto the
ready queue in FIFO registration order.  A second settlement attempt fails
with `AlreadyResolved`.  Modelled from the spec: section 4.1 `resolve`/`fail`
(asyncio.Future is not in src/). -/
def resolveCore (fid : Nat) (r : Except Err Val) (s : St) : Except Err St :=
  match lookupF s.futures fid with
  | some (FState.pending ws) =>
      Except.ok
        { s with
          futures := updF fid
            (match r with
             | Except.ok v => FState.resolvedS v
             | Except.error e => FState.failedS e) s.futures,
          ready := s.ready ++ ws.map (fun w => { res := r, k := w.k, resultF := w.resultF }) }
  | _ => Except.error Err.alreadyResolved

/-- Total wrapper around `resolveCore`: a structural error leaves the state
unchanged.  Machine-internal settlements (timers, lock grants) only ever hit
pending futures. -/
def applyResolve (fid : Nat) (r : Except Err Val) (s : St) : St :=
  match resolveCore fid r s with
  | Except.ok s1 => s1
  | Except.error _ => s

/-- Register a waiter on `fid`; if the future is already settled the waiter is
enqueued onto the ready queue immediately (spec section 4.1 `register_waiter`). -/
def register_waiter (fid : Nat) (w : Waiter) (s : St) : St :=
  match lookupF s.futures fid with
  | some (FState.pending ws) =>
      { s with futures := updF fid (FState.pending (ws ++ [w])) s.futures }
  | some (FState.resolvedS v) =>
      { s with ready := s.ready ++ [{ res := Except.ok v, k := w.k, resultF := w.resultF }] }
  | some (FState.failedS e) =>
      { s with ready := s.ready ++ [{ res := Except.error e, k := w.k, resultF := w.resultF }] }
  | none => s

/-- Outcome of driving a computation one step: paused awaiting a pending
future (with the rest of the body), completed, or failed (spec section 3,
`StepOutcome`). -/
inductive Outcome : Type where
  | suspended : Nat → (Val → Prog) → Outcome
  | completed : Val → Outcome
  | failedO : Err → Outcome

/-- Drive a computation synchronously up to its first remaining suspension
point, completion, or failure — the model of `coro.send(None)`.  Awaiting an
already-settled future does not suspend (asyncio `Future.__await__` returns
the result inline when done); awaiting a failed future raises its error.
`acquireL` takes the lock when free, else appends a fresh waiter future and
suspends on it (spec section 4.4; release hands the lock over while leaving
it held).  `releaseL` grants the oldest waiter if any, else frees the lock. -/
def drive : Prog → St → St × Outcome
  | Prog.ret v, s => (s, Outcome.completed v)
  | Prog.throwE e, s => (s, Outcome.failedO e)
  | Prog.log m k, s => drive k (addLog m s)
  | Prog.work d k, s => drive k { s with now := s.now + d }
  | Prog.sleepF d k, s =>
      match async_sleep d s with
      | (s1, fid) => drive (k fid) s1
  | Prog.awaitFut fid k, s =>
      match lookupF s.futures fid with
      | some (FState.resolvedS v) => drive (k v) s
      | some (FState.failedS e) => (s, Outcome.failedO e)
      | _ => (s, Outcome.suspended fid k)
  | Prog.acquireL k, s =>
      if s.lock.locked then
        match newFuture s with
        | (s1, fid) =>
            ({ s1 with lock := { locked := true, waiters := s1.lock.waiters ++ [fid] } },
             Outcome.suspended fid (fun _ => k))
      else
        drive k { s with lock := { locked := true, waiters := s.lock.waiters } }
  | Prog.releaseL k, s =>
      if s.lock.locked then
        match s.lock.waiters with
        | fid :: rest =>
            drive k (applyResolve fid (Except.ok Val.unit)
              { s with lock := { locked := true, waiters := rest } })
        | [] => drive k { s with lock := { locked := false, waiters := [] } }
      else (s, Outcome.failedO Err.notHeld)

/-- Process one ready-queue entry: resume its continuation (an error resume
raises at the suspension point, failing the owning task), register a waiter on
a new suspension, or settle the task's result future on termination.
Modelled from the spec: sections 4.3 and 4.5. -/
def procReady (e : ReadyE) (s : St) : St :=
  match e.res with
  | Except.error er => applyResolve e.resultF (Except.error er) s
  | Except.ok v =>
      match drive (e.k v) s with
      | (s1, Outcome.completed v1) => applyResolve e.resultF (Except.ok v1) s1
      | (s1, Outcome.failedO er) => applyResolve e.resultF (Except.error er) s1
      | (s1, Outcome.suspended fid k1) =>
          register_waiter fid { k := k1, resultF := e.resultF } s1

/-- Resolve, in deadline order, every timer of the given queue whose deadline
has been reached; the remainder becomes the new timer queue. -/
def fireDueAux (now : Nat) : List (Nat × Nat) → St → St
  | [], s => s
  | (d, fid) :: rest, s =>
      if d ≤ now then fireDueAux now rest (applyResolve fid (Except.ok Val.unit) s)
      else { s with timers := (d, fid) :: rest }

/-- One scheduler tick.  A pending ready entry is processed first (strict
FIFO); with an empty ready queue, time advances to the next timer deadline
(never backwards) and all due timers fire; with both queues empty the loop is
idle (`none`).  Modelled from the spec: section 4.3 `run_until_idle`. -/
def schedStep (s : St) : Option St :=
  match s.ready with
  | e :: rest => some (procReady e { s with ready := rest })
  | [] =>
      match s.timers with
      | [] => none
      | (d, _) :: _ =>
          some (fireDueAux (max s.now d) s.timers
            { s with now := max s.now d, timers := [] })

/-- The settled value of a future, if any. -/
def settledRes (s : St) (fid : Nat) : Option (Except Err Val) :=
  match lookupF s.futures fid with
  | some (FState.resolvedS v) => some (Except.ok v)
  | some (FState.failedS e) => some (Except.error e)
  | _ => none

/-- Run scheduler ticks until future `fid` settles, returning its result
(fuel-bounded; `none` when the fuel runs out or the loop deadlocks).  This is
what happens while the top-level coroutine is suspended awaiting `fid`. -/
def awaitFid : Nat → Nat → St → St × Option (Except Err Val)
  | 0, fid, s => (s, settledRes s fid)
  | fuel + 1, fid, s =>
      match settledRes s fid with
      | some r => (s, some r)
      | none =>
          match schedStep s with
          | some s1 => awaitFid fuel fid s1
          | none => (s, none)

/-- The top-level context awaiting a bare coroutine (Python's `await coro`,
i.e. `yield from`): drive it inline; at each suspension let the scheduler run
until the awaited future settles, then resume inline with its value (an error
raises, failing the whole computation). -/
def awaitProgML (fuel : Nat) (p : Prog) (s : St) : St × Option (Except Err Val) :=
  match drive p s with
  | (s1, Outcome.completed v) => (s1, some (Except.ok v))
  | (s1, Outcome.failedO e) => (s1, some (Except.error e))
  | (s1, Outcome.suspended fid k) =>
      match fuel with
      | 0 => (s1, none)
      | fuel1 + 1 =>
          match awaitFid fuel1 fid s1 with
          | (s2, some (Except.ok v)) => awaitProgML fuel1 (k v) s2
          | (s2, some (Except.error e)) => (s2, some (Except.error e))
          | (s2, none) => (s2, none)

/-- The value returned by the notebook's eager adapter
(`js_like_await(coro)`): either an already-resolved `asyncio.Future`
(`settledV`, built when the coroutine finished before its first suspension),
or a `JSLikeCoroutine` (`suspendedH`) storing the awaitable the coroutine
first suspended on together with the partially-run coroutine itself. -/
inductive EagerHandle : Type where
  | settledV : Val → EagerHandle
  | suspendedH : Nat → (Val → Prog) → EagerHandle

/-- Translation of the notebook's `coroutine_with_js_like_await(*args)` (the
function `js_like_await` wraps around the coroutine factory): construct the
coroutine and immediately `send(None)` — synchronously, before returning.  A
first-step suspension yields a `JSLikeCoroutine` handle; a `StopIteration`
(normal completion) yields a pre-resolved future; any other exception is not
caught and propagates to the caller. -/
def coroutine_with_js_like_await (p : Prog) (s : St) : St × Except Err EagerHandle :=
  match drive p s with
  | (s1, Outcome.completed v) => (s1, Except.ok (EagerHandle.settledV v))
  | (s1, Outcome.failedO e) => (s1, Except.error e)
  | (s1, Outcome.suspended fid k) => (s1, Except.ok (EagerHandle.suspendedH fid k))

/-- The top-level context awaiting an eager handle.  For a pre-resolved
future this returns its value with no suspension.  For a `JSLikeCoroutine`
this is its `__await__`: first `yield self.awaitable` (replaying the stored
suspension point, so the awaiter suspends until that future settles), then
keep driving the same coroutine object step by step until it finishes. -/
def awaitHandleML (fuel : Nat) (h : EagerHandle) (s : St) : St × Option (Except Err Val) :=
  match h with
  | EagerHandle.settledV v => (s, some (Except.ok v))
  | EagerHandle.suspendedH fid k =>
      match awaitFid fuel fid s with
      | (s1, some (Except.ok v)) => awaitProgML fuel (k v) s1
      | (s1, some (Except.error e)) => (s1, some (Except.error e))
      | (s1, none) => (s1, none)

/-- Invoke a computation through the eager adapter and await the resulting
handle (a synchronously propagated invocation failure reaches the awaiting
caller as the same raised error). -/
def eagerRun (fuel : Nat) (p : Prog) (s : St) : St × Option (Except Err Val) :=
  match coroutine_with_js_like_await p s with
  | (s1, Except.error e) => (s1, some (Except.error e))
  | (s1, Except.ok h) => awaitHandleML fuel h s1

/-- Submitting a computation as a Task (`asyncio.create_task`): create the
task's result future and enqueue a ready entry that will perform the first
drive step when the scheduler next processes the ready queue.  Nothing of the
computation runs here.  Modelled from the spec: section 4.5 and the
notebook's cell "The task was created, but ... the event loop never started
executing our task" (asyncio.Task is not in src/). -/
def create_task (p : Prog) (s : St) : St × Nat :=
  match newFuture s with
  | (s1, rf) =>
      ({ s1 with ready := s1.ready ++ [{ res := Except.ok Val.unit, k := fun _ => p, resultF := rf }] },
       rf)

/-- The notebook's `WORK_TIME = 2`. -/
def WORK_TIME : Nat := 2

/-- The notebook's `WRITE_TIME = 1`. -/
def WRITE_TIME : Nat := 1

/-- Log line of `do_cpu_work`: starting the CPU work. -/
def xStart (i : Nat) : String := "[X" ++ toString i ++ "] > Starting CPU work"

/-- Log line of `do_cpu_work`: CPU work done. -/
def xDone (i : Nat) : String := "[X" ++ toString i ++ "] < Done with CPU work"

/-- Log line of `write_output_async`: telling the OS to write. -/
def oTell (i : Nat) : String := "[O" ++ toString i ++ "] >> Tell OS to write output"

/-- Log line of `write_output_async`: the OS write completed. -/
def oDone (i : Nat) : String := "[O" ++ toString i ++ "] << OS writing completed"

/-- Log line of `os_async_write`: the OS started writing. -/
def wStart (i : Nat) : String := "[W" ++ toString i ++ "] >>> OS started writing"

/-- Log line of `os_async_write` (unlocked branch): the OS finished writing. -/
def wDone (i : Nat) : String := "[W" ++ toString i ++ "] <<< OS done writing"

/-- Log line of the examples: loop start. -/
def msgStarting : String := "Starting"

/-- Log line of the examples: all done. -/
def msgDone : String := "Done"

/-- Log line of examples 7/10: about to await the last write. -/
def msgAwaitLast : String := "Awaiting last write"

/-- Translation of the notebook's `do_cpu_work(i)`: a plain synchronous
function — log, occupy the thread for `WORK_TIME` units (`time.sleep`), log. -/
def do_cpu_work (i : Nat) (s : St) : St :=
  let s1 := addLog (xStart i) s
  let s2 := { s1 with now := s1.now + WORK_TIME }
  addLog (xDone i) s2

/-- Translation of the notebook's `os_async_write(i, lock)`: a *plain*
function.  It logs at call time.  Without the lock it also calls
`async_sleep(WRITE_TIME)` at call time (registering the timer immediately)
and returns the not-yet-started coroutine `_wait_for_write(sleep_awaitable)`,
whose body awaits the sleep future and then logs completion.  With the lock
it calls `write_lock.acquire()` — which, asyncio's `Lock.acquire` being an
`async def`, merely creates a coroutine and acquires nothing at call time —
and returns the not-yet-started `_wait_for_write(lock_awaitable)` whose body
drives the acquisition, sleeps `WRITE_TIME`, and finally releases the lock
(the `try/finally`; no exception occurs on this path in any modelled run). -/
def os_async_write (i : Nat) (lock : Bool) (s : St) : St × Prog :=
  let s1 := addLog (wStart i) s
  if lock then
    (s1, Prog.acquireL (Prog.sleepF WRITE_TIME (fun fid =>
           Prog.awaitFut fid (fun _ => Prog.releaseL (Prog.ret Val.unit)))))
  else
    match async_sleep WRITE_TIME s1 with
    | (s2, fid) =>
        (s2, Prog.awaitFut fid (fun _ => Prog.log (wDone i) (Prog.ret Val.unit)))

/-- Translation of the notebook's `async def write_output_async(i, lock)`:
calling it builds this coroutine body and runs nothing.  When driven, the
body logs, calls `os_async_write(i, lock)` (whose call-time effects — the
`wStart` log, plus the timer registration in the unlocked case — therefore
happen at drive time here) and immediately awaits the returned coroutine
inline, then logs completion.  The awaited inner coroutine is inlined in
continuation-passing style; `write_output_async_models_composition` below
proves this inlining equal to composing `os_async_write` with the trailing
log. -/
def write_output_async (i : Nat) (lock : Bool) : Prog :=
  Prog.log (oTell i)
    (Prog.log (wStart i)
      (if lock then
        Prog.acquireL (Prog.sleepF WRITE_TIME (fun fid =>
          Prog.awaitFut fid (fun _ =>
            Prog.releaseL (Prog.log (oDone i) (Prog.ret Val.unit)))))
      else
        Prog.sleepF WRITE_TIME (fun fid =>
          Prog.awaitFut fid (fun _ =>
            Prog.log (wDone i) (Prog.log (oDone i) (Prog.ret Val.unit))))))

/-- Sequencing of computations (`await p` followed by `k` on its value) —
Python's coroutine chaining, used to state the inlining lemma. -/
def Prog.bind : Prog → (Val → Prog) → Prog
  | Prog.ret v, k => k v
  | Prog.throwE e, _ => Prog.throwE e
  | Prog.log m p, k => Prog.log m (Prog.bind p k)
  | Prog.work d p, k => Prog.work d (Prog.bind p k)
  | Prog.sleepF d f, k => Prog.sleepF d (fun fid => Prog.bind (f fid) k)
  | Prog.awaitFut fid f, k => Prog.awaitFut fid (fun v => Prog.bind (f v) k)
  | Prog.acquireL p, k => Prog.acquireL (Prog.bind p k)
  | Prog.releaseL p, k => Prog.releaseL (Prog.bind p k)

/-- The inlined `write_output_async` body equals the literal composition of
the source: log `oTell`, call the plain function `os_async_write`, await its
returned coroutine, then log `oDone`. -/
theorem write_output_async_models_composition (i : Nat) (lock : Bool) (s : St) :
    drive (write_output_async i lock) s =
      (match os_async_write i lock (addLog (oTell i) s) with
       | (s1, p) =>
           drive (Prog.bind p (fun _ => Prog.log (oDone i) (Prog.ret Val.unit))) s1) := by
  cases lock <;> simp only [write_output_async, os_async_write, async_sleep, newFuture,
    Prog.bind, drive, if_true, if_false, Bool.false_eq_true]

/-- Translation of the notebook's `example2_await_before_next_write` (run to
completion under the event loop), with the write-lock requirement as a
parameter.  Three iterations of: do the CPU work; await the previous write's
*coroutine* (created lazily, so nothing of it has run yet); create the next
write's coroutine (no effect).  The loop is unrolled; creating a `Prog` is
pure, so the creation points are where the source has them. -/
def example2_await_before_next_write (lock : Bool) (fuel : Nat) :
    St × Option (Except Err Val) :=
  let s := do_cpu_work 0 (addLog msgStarting initSt)
  let w0 := write_output_async 0 lock
  let s := do_cpu_work 1 s
  match awaitProgML fuel w0 s with
  | (s, none) => (s, none)
  | (s, some (Except.error e)) => (s, some (Except.error e))
  | (s, some (Except.ok _)) =>
      let w1 := write_output_async 1 lock
      let s := do_cpu_work 2 s
      match awaitProgML fuel w1 s with
      | (s, none) => (s, none)
      | (s, some (Except.error e)) => (s, some (Except.error e))
      | (s, some (Except.ok _)) =>
          let w2 := write_output_async 2 lock
          match awaitProgML fuel w2 s with
          | (s, none) => (s, none)
          | (s, some (Except.error e)) => (s, some (Except.error e))
          | (s, some (Except.ok _)) => (addLog msgDone s, some (Except.ok Val.unit))

/-- Translation of the notebook's `example10_fixed_write_with_gather` (run to
completion under the event loop), with the write-lock requirement as a
parameter.  Three iterations of: do the CPU work; await the previous eager
handle; invoke `fixed_write_output_async(i)` — i.e. `write_output_async`
through the eager adapter, which starts the OS write synchronously — then
await the last handle. -/
def example10_fixed_write_with_gather (lock : Bool) (fuel : Nat) :
    St × Option (Except Err Val) :=
  let s := do_cpu_work 0 (addLog msgStarting initSt)
  match coroutine_with_js_like_await (write_output_async 0 lock) s with
  | (s, Except.error e) => (s, some (Except.error e))
  | (s, Except.ok h0) =>
      let s := do_cpu_work 1 s
      match awaitHandleML fuel h0 s with
      | (s, none) => (s, none)
      | (s, some (Except.error e)) => (s, some (Except.error e))
      | (s, some (Except.ok _)) =>
          match coroutine_with_js_like_await (write_output_async 1 lock) s with
          | (s, Except.error e) => (s, some (Except.error e))
          | (s, Except.ok h1) =>
              let s := do_cpu_work 2 s
              match awaitHandleML fuel h1 s with
              | (s, none) => (s, none)
              | (s, some (Except.error e)) => (s, some (Except.error e))
              | (s, some (Except.ok _)) =>
                  match coroutine_with_js_like_await (write_output_async 2 lock) s with
                  | (s, Except.error e) => (s, some (Except.error e))
                  | (s, Except.ok h2) =>
                      let s := addLog msgAwaitLast s
                      match awaitHandleML fuel h2 s with
                      | (s, none) => (s, none)
                      | (s, some (Except.error e)) => (s, some (Except.error e))
                      | (s, some (Except.ok _)) =>
                          (addLog msgDone s, some (Except.ok Val.unit))

/-- A generic suspendable computation with an observable pre-suspension side
effect: record the marker `m`, start a `d`-unit timed wait (the "tell the OS
to start the write" part), then suspend on it with an arbitrary rest `rest`.
This is the shape of every notebook write coroutine. -/
def markerComp (m : String) (d : Nat) (rest : Val → Prog) : Prog :=
  Prog.log m (Prog.sleepF d (fun fid => Prog.awaitFut fid rest))

/-- Concrete marker used by closed witnesses and counterexamples. -/
def markerA : String := "marker recorded before first suspension"

/-- Concrete failure message used by closed witnesses and counterexamples. -/
def boomMsg : String := "boom"

/-- The future id an `Outcome.suspended` pauses on, if any (lets closed
statements talk about suspension without comparing continuations). -/
def suspendedOn : Outcome → Option Nat
  | Outcome.suspended fid _ => some fid
  | _ => none

/-- The result `coroutine_with_js_like_await` packages a first-step outcome
into: completion becomes a pre-resolved future, suspension becomes a
`JSLikeCoroutine` handle, any other exception propagates. -/
def outcomeToEager : Outcome → Except Err EagerHandle
  | Outcome.completed v => Except.ok (EagerHandle.settledV v)
  | Outcome.failedO e => Except.error e
  | Outcome.suspended fid k => Except.ok (EagerHandle.suspendedH fid k)

/-- Claim C1: for every suspendable computation wrapped by the eager adapter,
`invoke` executes the computation's code up to and including its first
suspension point synchronously, before returning and with zero scheduler
ticks: for any computation that records a marker and registers its timed OS
write before first suspending, the state returned by
`coroutine_with_js_like_await` itself — no `schedStep` applied — already
contains the marker in the log and the registered timer, the ready queue is
untouched, and the returned handle replays the suspension point. -/
theorem eager_invoke_runs_presuspension_effects
    (m : String) (d : Nat) (rest : Val → Prog) (s : St) :
    (coroutine_with_js_like_await (markerComp m d rest) s).1.log = s.log ++ [m] ∧
    (coroutine_with_js_like_await (markerComp m d rest) s).1.ready = s.ready ∧
    (coroutine_with_js_like_await (markerComp m d rest) s).1.timers =
      insertTimer (s.now + d) s.nextF s.timers ∧
    (coroutine_with_js_like_await (markerComp m d rest) s).2 =
      Except.ok (EagerHandle.suspendedH s.nextF rest) := by
  simp [markerComp, coroutine_with_js_like_await, drive, async_sleep, newFuture,
    addLog, lookupF]

/-- Claim C2: a computation submitted lazily as a Task runs none of its code
past entry — the marker is not logged, the timer not registered, time not
advanced — until the Scheduler first processes the task, at which point the
pre-suspension effects appear (contrast `eager_invoke_runs_presuspension_effects`
for the identical computation body, whose effects are present already at
invoke time). -/
theorem task_defers_execution (m : String) (d : Nat) (rest : Val → Prog) (s : St)
    (hr : s.ready = []) :
    (create_task (markerComp m d rest) s).1.log = s.log ∧
    (create_task (markerComp m d rest) s).1.timers = s.timers ∧
    (create_task (markerComp m d rest) s).1.now = s.now ∧
    Option.map St.log (schedStep (create_task (markerComp m d rest) s).1) =
      some (s.log ++ [m]) ∧
    Option.map St.timers (schedStep (create_task (markerComp m d rest) s).1) =
      some (insertTimer (s.now + d) (s.nextF + 1) s.timers) := by
  refine ⟨rfl, rfl, rfl, ?_, ?_⟩ <;>
    simp [create_task, newFuture, markerComp, schedStep, procReady, drive,
      async_sleep, addLog, register_waiter, lookupF, updF, hr]

/-- Claim C2, witness at a concrete input. -/
theorem task_defers_execution_witness :
    initSt.ready = [] ∧
    ((create_task (markerComp markerA 1 (fun _ => Prog.ret Val.unit)) initSt).1.log =
        initSt.log ∧
      (create_task (markerComp markerA 1 (fun _ => Prog.ret Val.unit)) initSt).1.timers =
        initSt.timers ∧
      (create_task (markerComp markerA 1 (fun _ => Prog.ret Val.unit)) initSt).1.now =
        initSt.now ∧
      Option.map St.log
          (schedStep (create_task (markerComp markerA 1 (fun _ => Prog.ret Val.unit)) initSt).1) =
        some (initSt.log ++ [markerA]) ∧
      Option.map St.timers
          (schedStep (create_task (markerComp markerA 1 (fun _ => Prog.ret Val.unit)) initSt).1) =
        some (insertTimer (initSt.now + 1) (initSt.nextF + 1) initSt.timers)) :=
  ⟨rfl, task_defers_execution markerA 1 (fun _ => Prog.ret Val.unit) initSt rfl⟩

/-- Claim C3, counterexample: the claim says that after `Task.submit` returns
the driver has been stepped once, up to its first suspension point — which
would have logged the computation's pre-suspension marker and registered its
timer.  At this concrete input neither happened: submitting via `create_task`
leaves the log and the timer queue empty. -/
theorem task_submit_no_sync_step :
    (create_task (markerComp markerA 1 (fun _ => Prog.ret Val.unit)) initSt).1.log = [] ∧
    (create_task (markerComp markerA 1 (fun _ => Prog.ret Val.unit)) initSt).1.timers = [] :=
  ⟨rfl, rfl⟩

/-- Claim C3 as amended: `create_task` performs no drive step synchronously;
it enqueues exactly one ready entry, and the Scheduler's first processing of
that entry performs exactly one drive step, taking the driver to its first
suspension point (marker logged, timer registered) and leaving the ready
queue empty again (no further steps pending). -/
theorem task_submit_schedules_single_step
    (m : String) (d : Nat) (rest : Val → Prog) (s : St) (hr : s.ready = []) :
    (create_task (markerComp m d rest) s).1.log = s.log ∧
    (create_task (markerComp m d rest) s).1.ready.length = 1 ∧
    Option.map St.log (schedStep (create_task (markerComp m d rest) s).1) =
      some (s.log ++ [m]) ∧
    Option.map St.ready (schedStep (create_task (markerComp m d rest) s).1) =
      some [] := by
  refine ⟨rfl, ?_, ?_, ?_⟩ <;>
    simp [create_task, newFuture, markerComp, schedStep, procReady, drive,
      async_sleep, addLog, register_waiter, lookupF, updF, hr]

/-- Claim C3 as amended, witness at a concrete input. -/
theorem task_submit_schedules_single_step_witness :
    initSt.ready = [] ∧
    ((create_task (markerComp markerA 2 (fun _ => Prog.ret Val.unit)) initSt).1.log =
        initSt.log ∧
      (create_task (markerComp markerA 2 (fun _ => Prog.ret Val.unit)) initSt).1.ready.length = 1 ∧
      Option.map St.log
          (schedStep (create_task (markerComp markerA 2 (fun _ => Prog.ret Val.unit)) initSt).1) =
        some (initSt.log ++ [markerA]) ∧
      Option.map St.ready
          (schedStep (create_task (markerComp markerA 2 (fun _ => Prog.ret Val.unit)) initSt).1) =
        some []) :=
  ⟨rfl, task_submit_schedules_single_step markerA 2 (fun _ => Prog.ret Val.unit) initSt rfl⟩

/-- Claim C4: the end-to-end scenario with `WORK_TIME = 2`, `WRITE_TIME = 1`,
3 iterations and the single-writer lock.  The eager-adapter loop finishes at
virtual time `3 * WORK_TIME + WRITE_TIME = 7`, and its log shows each OS
write starting before the next iteration's CPU work (the write overlaps that
compute) and completing during the following await.  The lazy loop finishes
at `3 * WORK_TIME + 3 * WRITE_TIME = 9`, its log showing every OS write
starting only after all preceding CPU work and completing before the next
compute — no overlap. -/
theorem end_to_end_timing :
    (example10_fixed_write_with_gather true 20).1.now = 3 * WORK_TIME + WRITE_TIME ∧
    (example10_fixed_write_with_gather true 20).2 = some (Except.ok Val.unit) ∧
    (example10_fixed_write_with_gather true 20).1.log =
      [msgStarting, xStart 0, xDone 0, oTell 0, wStart 0,
       xStart 1, xDone 1, oDone 0, oTell 1, wStart 1,
       xStart 2, xDone 2, oDone 1, oTell 2, wStart 2,
       msgAwaitLast, oDone 2, msgDone] ∧
    (example2_await_before_next_write true 20).1.now = 3 * WORK_TIME + 3 * WRITE_TIME ∧
    (example2_await_before_next_write true 20).2 = some (Except.ok Val.unit) ∧
    (example2_await_before_next_write true 20).1.log =
      [msgStarting, xStart 0, xDone 0, xStart 1, xDone 1,
       oTell 0, wStart 0, oDone 0, xStart 2, xDone 2,
       oTell 1, wStart 1, oDone 1, oTell 2, wStart 2,
       oDone 2, msgDone] :=
  ⟨rfl, rfl, rfl, rfl, rfl, rfl⟩

/-- Claim C5, counterexample: the claim says a computation that fails before
its first suspension yields a pre-failed handle; in the code only
`StopIteration` is caught, so at this concrete input the failure propagates
synchronously to the caller of `coroutine_with_js_like_await` — no handle of
any kind is returned. -/
theorem eager_invoke_propagates_failure :
    coroutine_with_js_like_await (Prog.throwE (Err.userErr boomMsg)) initSt =
      (initSt, Except.error (Err.userErr boomMsg)) :=
  rfl

/-- Claim C5 as amended: a wrapped computation that completes before any
suspension point yields an already-settled, pre-resolved handle (awaiting it
returns the value with no scheduler involvement); a computation that fails
before any suspension point has its error propagate synchronously out of
`invoke` to the caller instead of being wrapped in a pre-failed handle. -/
theorem eager_invoke_settled_policy (p : Prog) (s s1 : St) (r : Outcome)
    (h : drive p s = (s1, r)) :
    coroutine_with_js_like_await p s = (s1, outcomeToEager r) ∧
    (∀ v, r = Outcome.completed v →
      awaitHandleML 0 (EagerHandle.settledV v) s1 = (s1, some (Except.ok v))) := by
  constructor
  · unfold coroutine_with_js_like_await
    rw [h]
    cases r <;> rfl
  · intro v _
    rfl

/-- Claim C5 as amended, witness at a concrete input (a computation that logs
and then completes without suspending). -/
theorem eager_invoke_settled_policy_witness :
    drive (Prog.log markerA (Prog.ret (Val.nat 5))) initSt =
        (addLog markerA initSt, Outcome.completed (Val.nat 5)) ∧
    (coroutine_with_js_like_await (Prog.log markerA (Prog.ret (Val.nat 5))) initSt =
        (addLog markerA initSt, outcomeToEager (Outcome.completed (Val.nat 5))) ∧
      (∀ v, Outcome.completed (Val.nat 5) = Outcome.completed v →
        awaitHandleML 0 (EagerHandle.settledV v) (addLog markerA initSt) =
          (addLog markerA initSt, some (Except.ok v)))) :=
  ⟨rfl, eager_invoke_settled_policy (Prog.log markerA (Prog.ret (Val.nat 5))) initSt
    (addLog markerA initSt) (Outcome.completed (Val.nat 5)) rfl⟩

/-- Claim C6: invoking a computation through the eager adapter and then
awaiting the returned handle is extensionally equal — same final state, same
final result, for every computation, start state and fuel — to driving the
unadapted computation lazily to settlement.  The handle produced after a
first-step suspension replays that stored suspension point and then resumes
driving the same coroutine step by step (`awaitHandleML`), which coincides
with the lazy drive loop (`awaitProgML`) entered with one more drive step
available. -/
theorem eager_handle_refines_lazy (fuel : Nat) (p : Prog) (s : St) :
    eagerRun fuel p s = awaitProgML (fuel + 1) p s := by
  rw [awaitProgML]
  unfold eagerRun coroutine_with_js_like_await
  rcases hd : drive p s with ⟨s1, r⟩
  cases r with
  | completed v => rfl
  | failedO e => rfl
  | suspended fid k =>
      simp only [awaitHandleML]

/-- Updating a future that is present yields the new state on lookup. -/
theorem lookupF_updF_self (fs : List (Nat × FState)) (fid : Nat) (st st0 : FState)
    (h : lookupF fs fid = some st0) : lookupF (updF fid st fs) fid = some st := by
  induction fs with
  | nil => simp [lookupF] at h
  | cons pr rest ih =>
      rcases pr with ⟨j, stj⟩
      by_cases hj : j = fid
      · simp [lookupF, updF, hj]
      · simp only [lookupF, updF, if_neg hj] at h ⊢
        exact ih h

/-- Updating one future leaves every other lookup unchanged. -/
theorem lookupF_updF_ne (fs : List (Nat × FState)) (fid g : Nat) (st : FState)
    (h : g ≠ fid) : lookupF (updF fid st fs) g = lookupF fs g := by
  induction fs with
  | nil => rfl
  | cons pr rest ih =>
      rcases pr with ⟨j, stj⟩
      by_cases hj : j = fid
      · subst hj
        have hne : ¬(j = g) := fun hh => h hh.symm
        simp [lookupF, updF, hne]
      · simp only [updF, if_neg hj, lookupF]
        by_cases hg : j = g <;> simp [hg, ih]

/-- A suspended `acquire` on a held lock: create a fresh waiter future, append
it to the FIFO queue, suspend on it. -/
theorem acquireStep_locked (s : St) (hl : s.lock.locked = true) :
    drive (Prog.acquireL (Prog.ret Val.unit)) s =
      ({ s with nextF := s.nextF + 1,
                futures := (s.nextF, FState.pending []) :: s.futures,
                lock := { locked := true, waiters := s.lock.waiters ++ [s.nextF] } },
       Outcome.suspended s.nextF (fun _ => Prog.ret Val.unit)) := by
  simp [drive, hl, newFuture]

/-- `n` suspended `acquire` calls in sequence, collecting the waiter future
ids of the callers that were queued (all of them, when the lock is held
throughout). -/
def acquireMany : Nat → St → St × List Nat
  | 0, s => (s, [])
  | n + 1, s =>
      match drive (Prog.acquireL (Prog.ret Val.unit)) s with
      | (s1, Outcome.suspended fid _) =>
          match acquireMany n s1 with
          | (s2, fids) => (s2, fid :: fids)
      | (s1, _) =>
          match acquireMany n s1 with
          | (s2, fids) => (s2, fids)

/-- One `release`: grant the oldest waiter if any, else free the lock. -/
def releaseStep (s : St) : St :=
  (drive (Prog.releaseL (Prog.ret Val.unit)) s).1

/-- `k` releases in sequence. -/
def releaseMany : Nat → St → St
  | 0, s => s
  | k + 1, s => releaseMany k (releaseStep s)

/-- The state after one suspended `acquire` on a held lock (the right-hand
side of `acquireStep_locked`), named for use in the induction below. -/
def acquireSt (s : St) : St :=
  { s with nextF := s.nextF + 1,
           futures := (s.nextF, FState.pending []) :: s.futures,
           lock := { locked := true, waiters := s.lock.waiters ++ [s.nextF] } }

/-- Unfolding `acquireMany` once over a held lock. -/
theorem acquireMany_succ_locked (n : Nat) (s : St) (hl : s.lock.locked = true) :
    acquireMany (n + 1) s =
      ((acquireMany n (acquireSt s)).1, s.nextF :: (acquireMany n (acquireSt s)).2) := by
  simp only [acquireMany, acquireStep_locked s hl, acquireSt]

/-- Effect of `n` acquires on a held lock: the queued waiter future ids are
exactly `nextF, nextF+1, ...` in call order, appended to the FIFO queue in
that order; each waiter future is freshly pending; other futures are
untouched. -/
theorem acquireMany_spec (n : Nat) (s : St) (hl : s.lock.locked = true) :
    (acquireMany n s).2 = List.range' s.nextF n ∧
    (acquireMany n s).1.lock.locked = true ∧
    (acquireMany n s).1.lock.waiters = s.lock.waiters ++ List.range' s.nextF n ∧
    (acquireMany n s).1.nextF = s.nextF + n ∧
    (∀ g, g < s.nextF ∨ s.nextF + n ≤ g →
        lookupF (acquireMany n s).1.futures g = lookupF s.futures g) ∧
    (∀ g, s.nextF ≤ g → g < s.nextF + n →
        lookupF (acquireMany n s).1.futures g = some (FState.pending [])) := by
  induction n generalizing s with
  | zero =>
      refine ⟨rfl, hl, by simp [acquireMany, List.range'], rfl, fun g _ => rfl, ?_⟩
      intro g h1 h2
      omega
  | succ n ih =>
      obtain ⟨h2, h3, h4, h5, h6, h7⟩ := ih (acquireSt s) rfl
      have hnf : (acquireSt s).nextF = s.nextF + 1 := rfl
      have hfu : (acquireSt s).futures = (s.nextF, FState.pending []) :: s.futures := rfl
      have hwl : (acquireSt s).lock.waiters = s.lock.waiters ++ [s.nextF] := rfl
      rw [hnf] at h2 h4 h5 h6 h7
      rw [acquireMany_succ_locked n s hl]
      refine ⟨?_, h3, ?_, ?_, ?_, ?_⟩
      · show s.nextF :: (acquireMany n (acquireSt s)).2 = List.range' s.nextF (n + 1)
        rw [h2, List.range'_succ]
      · show (acquireMany n (acquireSt s)).1.lock.waiters =
          s.lock.waiters ++ List.range' s.nextF (n + 1)
        rw [h4, hwl, List.range'_succ]
        simp [List.append_assoc]
      · show (acquireMany n (acquireSt s)).1.nextF = s.nextF + (n + 1)
        omega
      · intro g hg
        show lookupF (acquireMany n (acquireSt s)).1.futures g = lookupF s.futures g
        rw [h6 g (by omega), hfu, lookupF, if_neg (by omega)]
      · intro g hg1 hg2
        show lookupF (acquireMany n (acquireSt s)).1.futures g = some (FState.pending [])
        by_cases hgs : s.nextF = g
        · rw [h6 g (by omega), hfu, lookupF, if_pos hgs]
        · exact h7 g (by omega) (by omega)

/-- A `release` with waiters grants exactly the oldest waiter: its future is
resolved, it leaves the queue, the lock stays held (handed over). -/
theorem releaseStep_grant (s : St) (fid : Nat) (rest : List Nat)
    (hl : s.lock.locked = true) (hw : s.lock.waiters = fid :: rest)
    (hp : lookupF s.futures fid = some (FState.pending [])) :
    releaseStep s =
      { s with lock := { locked := true, waiters := rest },
               futures := updF fid (FState.resolvedS Val.unit) s.futures } := by
  simp [releaseStep, drive, hl, hw, applyResolve, resolveCore, hp]

/-- Releasing `k` times against a FIFO queue `l` of distinct pending waiter
futures grants exactly the first `k` waiters of `l`, in queue order: their
futures become resolved one release at a time, the queue becomes `l.drop k`,
the lock stays held, and no other future is touched. -/
theorem releaseMany_fifo (k : Nat) : ∀ (l : List Nat) (s : St),
    s.lock.locked = true → s.lock.waiters = l → l.Nodup →
    (∀ fid ∈ l, lookupF s.futures fid = some (FState.pending [])) →
    k ≤ l.length →
    (releaseMany k s).lock.locked = true ∧
    (releaseMany k s).lock.waiters = l.drop k ∧
    (∀ fid ∈ l.take k,
        lookupF (releaseMany k s).futures fid = some (FState.resolvedS Val.unit)) ∧
    (∀ g, g ∉ l.take k →
        lookupF (releaseMany k s).futures g = lookupF s.futures g) := by
  induction k with
  | zero =>
      intro l s hl hw _ _ _
      exact ⟨hl, by simpa [releaseMany] using hw, by simp [releaseMany], fun g _ => rfl⟩
  | succ k ih =>
      intro l s hl hw hnd hp hk
      cases l with
      | nil => simp at hk
      | cons fid rest =>
          have hpf := hp fid (List.mem_cons_self fid rest)
          have hfnr : fid ∉ rest := (List.nodup_cons.mp hnd).1
          have hstep := releaseStep_grant s fid rest hl hw hpf
          have h1 : releaseMany (k + 1) s = releaseMany k (releaseStep s) := rfl
          rw [h1, hstep]
          obtain ⟨c1, c2, c3, c4⟩ := ih rest
            { s with lock := { locked := true, waiters := rest },
                     futures := updF fid (FState.resolvedS Val.unit) s.futures }
            rfl rfl ((List.nodup_cons.mp hnd).2)
            (fun g hg => by
              rw [lookupF_updF_ne s.futures fid g _ (fun hgf => hfnr (hgf ▸ hg))]
              exact hp g (List.mem_cons_of_mem fid hg))
            (by simpa using hk)
          refine ⟨c1, by simpa using c2, ?_, ?_⟩
          · intro g hg
            rw [List.take_succ_cons] at hg
            rcases List.mem_cons.mp hg with hg1 | hg1
            · subst hg1
              rw [c4 g (fun hmem => hfnr (List.take_subset k rest hmem))]
              exact lookupF_updF_self s.futures g _ _ hpf
            · exact c3 g hg1
          · intro g hg
            rw [List.take_succ_cons, List.mem_cons] at hg
            push_neg at hg
            rw [c4 g hg.2]
            exact lookupF_updF_ne s.futures fid g _ hg.1

/-- `(range' f n).take k` for `k ≤ n`. -/
theorem range'_take (k : Nat) : ∀ (f n : Nat), k ≤ n →
    (List.range' f n).take k = List.range' f k := by
  induction k with
  | zero => intro f n _; simp [List.range']
  | succ k ih =>
      intro f n h
      cases n with
      | zero => omega
      | succ n =>
          rw [List.range'_succ, List.take_succ_cons, List.range'_succ, ih (f + 1) n (by omega)]

/-- `(range' f n).drop k` for `k ≤ n`. -/
theorem range'_drop (k : Nat) : ∀ (f n : Nat), k ≤ n →
    (List.range' f n).drop k = List.range' (f + k) (n - k) := by
  induction k with
  | zero => intro f n _; simp
  | succ k ih =>
      intro f n h
      cases n with
      | zero => omega
      | succ n =>
          rw [List.range'_succ, List.drop_succ_cons, ih (f + 1) n (by omega)]
          congr 1 <;> omega

/-- Claim C7: starting from a held lock with an empty queue, `n` suspended
`acquire` calls queue waiter futures `nextF, nextF+1, ...` in exactly call
order, and any `k ≤ n` subsequent releases grant the lock in exactly that
FIFO order: after the `k`-th release precisely the first `k` acquirers (in
acquisition order) have been granted — their waiter futures resolved, one
per release, so no double grant and no out-of-order grant — while the
remaining `n - k` waiters are still pending, queued in acquisition order. -/
theorem lock_release_grants_fifo (n k : Nat) (s : St)
    (hl : s.lock.locked = true) (hw : s.lock.waiters = []) (hk : k ≤ n) :
    (acquireMany n s).2 = List.range' s.nextF n ∧
    (acquireMany n s).1.lock.waiters = List.range' s.nextF n ∧
    (releaseMany k (acquireMany n s).1).lock.locked = true ∧
    (releaseMany k (acquireMany n s).1).lock.waiters =
      List.range' (s.nextF + k) (n - k) ∧
    (∀ j, j < k →
        lookupF (releaseMany k (acquireMany n s).1).futures (s.nextF + j) =
          some (FState.resolvedS Val.unit)) ∧
    (∀ j, k ≤ j → j < n →
        lookupF (releaseMany k (acquireMany n s).1).futures (s.nextF + j) =
          some (FState.pending [])) := by
  obtain ⟨a2, a3, a4, _, _, a7⟩ := acquireMany_spec n s hl
  rw [hw] at a4
  simp only [List.nil_append] at a4
  have hlen : (List.range' s.nextF n).length = n := by simp
  obtain ⟨c1, c2, c3, c4⟩ := releaseMany_fifo k (List.range' s.nextF n) (acquireMany n s).1
    a3 a4 (List.nodup_range' s.nextF n)
    (fun fid hf => by
      have hb := List.mem_range'_1.mp hf
      exact a7 fid hb.1 hb.2)
    (by omega)
  refine ⟨a2, a4, c1, ?_, ?_, ?_⟩
  · rw [c2, range'_drop k s.nextF n hk]
  · intro j hj
    apply c3
    rw [range'_take k s.nextF n hk]
    exact List.mem_range'_1.mpr ⟨by omega, by omega⟩
  · intro j hj1 hj2
    rw [c4 (s.nextF + j) (by
      rw [range'_take k s.nextF n hk]
      intro hmem
      have hb := List.mem_range'_1.mp hmem
      omega)]
    exact a7 (s.nextF + j) (by omega) (by omega)

/-- A concrete state holding the lock with an empty waiter queue: the result
of one immediate `acquire` from the pristine state. -/
def heldSt : St := (drive (Prog.acquireL (Prog.ret Val.unit)) initSt).1

/-- Claim C7, witness at a concrete input: 3 suspended acquires against the
held lock, then 2 releases. -/
theorem lock_release_grants_fifo_witness :
    heldSt.lock.locked = true ∧ heldSt.lock.waiters = [] ∧ 2 ≤ 3 ∧
    ((acquireMany 3 heldSt).2 = List.range' heldSt.nextF 3 ∧
      (acquireMany 3 heldSt).1.lock.waiters = List.range' heldSt.nextF 3 ∧
      (releaseMany 2 (acquireMany 3 heldSt).1).lock.locked = true ∧
      (releaseMany 2 (acquireMany 3 heldSt).1).lock.waiters =
        List.range' (heldSt.nextF + 2) (3 - 2) ∧
      (∀ j, j < 2 →
          lookupF (releaseMany 2 (acquireMany 3 heldSt).1).futures (heldSt.nextF + j) =
            some (FState.resolvedS Val.unit)) ∧
      (∀ j, 2 ≤ j → j < 3 →
          lookupF (releaseMany 2 (acquireMany 3 heldSt).1).futures (heldSt.nextF + j) =
            some (FState.pending []))) :=
  ⟨rfl, rfl, by omega, lock_release_grants_fifo 3 2 heldSt rfl rfl (by omega)⟩

/-- Claim C8: a Future is one-shot.  From any state in which future `fid` is
pending, a first `resolve`/`fail` (either polarity of `r1`) succeeds and
settles it with exactly `r1`; a second `resolve`/`fail` of either polarity
(`r2`) fails with the `AlreadyResolved` error, and applying it leaves the
state completely unchanged. -/
theorem future_resolve_once (s : St) (fid : Nat) (ws : List Waiter)
    (r1 r2 : Except Err Val) (h : lookupF s.futures fid = some (FState.pending ws)) :
    ∃ s1, resolveCore fid r1 s = Except.ok s1 ∧
      settledRes s1 fid = some r1 ∧
      resolveCore fid r2 s1 = Except.error Err.alreadyResolved ∧
      applyResolve fid r2 s1 = s1 := by
  have hl : ∀ st : FState, lookupF (updF fid st s.futures) fid = some st :=
    fun st => lookupF_updF_self s.futures fid st _ h
  refine ⟨{ s with
      futures := updF fid
        (match r1 with
         | Except.ok v => FState.resolvedS v
         | Except.error e => FState.failedS e) s.futures,
      ready := s.ready ++ ws.map (fun w => { res := r1, k := w.k, resultF := w.resultF }) },
    ?_, ?_, ?_, ?_⟩
  · simp [resolveCore, h]
  · cases r1 <;> simp [settledRes, hl]
  · cases r1 <;> simp [resolveCore, hl]
  · cases r1 <;> simp [applyResolve, resolveCore, hl]

/-- A concrete state with one pending future (id 0). -/
def onePendSt : St := (newFuture initSt).1

/-- Claim C8, witness at a concrete input: resolve future 0 with a value,
then attempt to fail it. -/
theorem future_resolve_once_witness :
    lookupF onePendSt.futures 0 = some (FState.pending []) ∧
    (∃ s1, resolveCore 0 (Except.ok (Val.nat 1)) onePendSt = Except.ok s1 ∧
      settledRes s1 0 = some (Except.ok (Val.nat 1)) ∧
      resolveCore 0 (Except.error (Err.userErr boomMsg)) s1 =
        Except.error Err.alreadyResolved ∧
      applyResolve 0 (Except.error (Err.userErr boomMsg)) s1 = s1) :=
  ⟨rfl, future_resolve_once onePendSt 0 [] (Except.ok (Val.nat 1))
    (Except.error (Err.userErr boomMsg)) rfl⟩

/-- Claim C9: `async_sleep t` fixes its deadline at call time.  Calling it
advances no time and registers a timer with deadline `now + t` immediately,
before the future is ever awaited; after `w ≥ t` units of intervening
synchronous work, awaiting the future completes within a single scheduler
tick and without advancing time any further — the delay elapsed concurrently
with the work. -/
theorem async_sleep_fixes_deadline (t w : Nat) (s : St)
    (hr : s.ready = []) (ht : s.timers = []) (htw : t ≤ w) :
    (async_sleep t s).1.now = s.now ∧
    (async_sleep t s).1.timers = [(s.now + t, (async_sleep t s).2)] ∧
    (awaitFid 1 (async_sleep t s).2
        (drive (Prog.work w (Prog.ret Val.unit)) (async_sleep t s).1).1).2 =
      some (Except.ok Val.unit) ∧
    (awaitFid 1 (async_sleep t s).2
        (drive (Prog.work w (Prog.ret Val.unit)) (async_sleep t s).1).1).1.now =
      s.now + w := by
  have hmax : max (s.now + w) (s.now + t) = s.now + w := by omega
  have hle : s.now + t ≤ s.now + w := by omega
  refine ⟨rfl, by simp [async_sleep, newFuture, insertTimer, ht], ?_, ?_⟩ <;>
    simp [async_sleep, newFuture, insertTimer, drive, awaitFid, settledRes,
      lookupF, schedStep, fireDueAux, applyResolve, resolveCore, updF,
      hr, ht, hmax, hle]

/-- Claim C9, witness at a concrete input. -/
theorem async_sleep_fixes_deadline_witness :
    initSt.ready = [] ∧ initSt.timers = [] ∧ 1 ≤ 2 ∧
    ((async_sleep 1 initSt).1.now = initSt.now ∧
      (async_sleep 1 initSt).1.timers = [(initSt.now + 1, (async_sleep 1 initSt).2)] ∧
      (awaitFid 1 (async_sleep 1 initSt).2
          (drive (Prog.work 2 (Prog.ret Val.unit)) (async_sleep 1 initSt).1).1).2 =
        some (Except.ok Val.unit) ∧
      (awaitFid 1 (async_sleep 1 initSt).2
          (drive (Prog.work 2 (Prog.ret Val.unit)) (async_sleep 1 initSt).1).1).1.now =
        initSt.now + 2) :=
  ⟨rfl, rfl, by omega, async_sleep_fixes_deadline 1 2 initSt rfl rfl (by omega)⟩

/-- Claim C10, counterexample: the claim says `os_async_write(i, lock=True)`
performs the lock acquisition synchronously at call time, before returning
its awaitable.  At this concrete input two such calls have been made and the
lock is still unheld with an empty waiter queue — no acquisition, and indeed
no future and no timer, was created at call time (asyncio's `Lock.acquire`
is an `async def`: calling it only creates a coroutine). -/
theorem os_async_write_no_sync_acquire :
    (os_async_write 2 true (os_async_write 1 true initSt).1).1.lock =
      { locked := false, waiters := [] } ∧
    (os_async_write 2 true (os_async_write 1 true initSt).1).1.futures = [] ∧
    (os_async_write 2 true (os_async_write 1 true initSt).1).1.timers = [] :=
  ⟨rfl, rfl, rfl⟩

/-- Claim C10 as amended: with `lock=True`, `os_async_write` acquires the
lock only when its returned awaitable is first driven; the lock's grant
order therefore equals the order in which the returned awaitables are first
driven, not the order of the `os_async_write` calls.  Concretely: after
calling write 1 then write 2, driving write 2's awaitable first hands the
lock to write 2 immediately (it proceeds to suspend on its own sleep future,
id 0, with an empty waiter queue), and write 1's awaitable, driven second,
queues behind it as waiter future 1 — the reverse of call order. -/
theorem lock_acquired_at_drive_time :
    (drive (os_async_write 2 true (os_async_write 1 true initSt).1).2
        (os_async_write 2 true (os_async_write 1 true initSt).1).1).1.lock =
      { locked := true, waiters := [] } ∧
    suspendedOn
        (drive (os_async_write 2 true (os_async_write 1 true initSt).1).2
          (os_async_write 2 true (os_async_write 1 true initSt).1).1).2 = some 0 ∧
    (drive (os_async_write 1 true initSt).2
        (drive (os_async_write 2 true (os_async_write 1 true initSt).1).2
          (os_async_write 2 true (os_async_write 1 true initSt).1).1).1).1.lock =
      { locked := true, waiters := [1] } ∧
    suspendedOn
        (drive (os_async_write 1 true initSt).2
          (drive (os_async_write 2 true (os_async_write 1 true initSt).1).2
            (os_async_write 2 true (os_async_write 1 true initSt).1).1).1).2 = some 1 :=
  ⟨rfl, rfl, rfl, rfl⟩

end AsyncFootgun
